import Mathlib

/-!
Verification development for the `prob_mbrl` repository (MC-PILCO /
deep-PILCO model-based reinforcement learning).

Numeric tensors are embedded over `ℚ`.  The rollout engine
(`prob_mbrl/algorithms/mc_pilco.py`) works on particle batches, embedded
here as `Matrix (Fin M) (Fin D) ℚ`.  External library routines that are
not part of the repository (the numeric backend's Cholesky factorization
`torch.potrf`, the policy network, the dynamics forward function, and the
`torch.randn` generator used when no shared noise pool is supplied) are
taken as parameters of the embedding, exactly as `rollout` itself takes
`forward` and `policy` as parameters.
-/

namespace ProbMbrl


/-! ### mc_pilco.py : get_z_rnd -/

/-- Embedding of `get_z_rnd(z, i, shape, device)` from
`prob_mbrl/algorithms/mc_pilco.py`.

The code builds `idxs = torch.range(i, i+shape[0]-1)` (an inclusive range
of `shape[0]` indices `i, i+1, ..., i+shape[0]-1`), reduces it with
`idxs %= shape[0]`, and returns `z[idxs]`.  So row `k` of the result is
pool row `(i + k) % rows` where `rows = shape[0]` is the number of
requested rows.  When `z is None` the code returns `torch.randn(*shape)`;
that fresh draw is the `fresh` parameter. -/
def get_z_rnd {rows cols : ℕ} (z : Option (ℕ → Fin cols → ℚ)) (i : ℕ)
    (fresh : Matrix (Fin rows) (Fin cols) ℚ) : Matrix (Fin rows) (Fin cols) ℚ :=
  match z with
  | some zp => fun k j => zp ((i + k.val) % rows) j
  | none => fresh

/-- The fetch rule as the specification words it: the noise for step `i`
consists of pool entries at indices wrapping modulo the pool *length* `L`
(the pool allocated by `mc_pilco` has length `steps + M`). -/
def get_z_rnd_specRule {rows cols : ℕ} (zp : ℕ → Fin cols → ℚ) (L i : ℕ) :
    Matrix (Fin rows) (Fin cols) ℚ :=
  fun k j => zp ((i + k.val) % L) j

/-! ### mc_pilco.py : rollout -/

/-- One trajectory element `(states, actions, rewards)` appended by
`rollout`. -/
structure Step (M D U : ℕ) where
  states : Matrix (Fin M) (Fin D) ℚ
  actions : Matrix (Fin M) (Fin U) ℚ
  rewards : Matrix (Fin M) (Fin 1) ℚ

/-- The all-zero trajectory element, used as a `getD` default. -/
def Step.zero (M D U : ℕ) : Step M D U :=
  ⟨fun _ _ => 0, fun _ _ => 0, fun _ _ => 0⟩

/-- The arguments of `rollout` (and the external collaborators it
closes over).  `forward` receives (states, actions, resample flag,
z_states, z_rewards) and returns (next_states, rewards); `policy`
receives (states, resample flag).  `rnd_mm`, `rnd_states`, `rnd_rewards`
supply the per-step `torch.randn` draws used when the corresponding pool
is `none`.  `potrf` is the numeric library's Cholesky factorization. -/
structure RolloutCfg (M D U : ℕ) where
  forward : Matrix (Fin M) (Fin D) ℚ → Matrix (Fin M) (Fin U) ℚ → Bool →
      Matrix (Fin M) (Fin D) ℚ → Matrix (Fin M) (Fin 1) ℚ →
      Matrix (Fin M) (Fin D) ℚ × Matrix (Fin M) (Fin 1) ℚ
  policy : Matrix (Fin M) (Fin D) ℚ → Bool → Matrix (Fin M) (Fin U) ℚ
  resample_model : Bool
  resample_policy : Bool
  mm_states : Bool
  mm_rewards : Bool
  z_mm : Option (ℕ → Fin D → ℚ)
  z_states : Option (ℕ → Fin D → ℚ)
  z_rewards : Option (ℕ → Fin 1 → ℚ)
  rnd_mm : ℕ → Matrix (Fin M) (Fin D) ℚ
  rnd_states : ℕ → Matrix (Fin M) (Fin D) ℚ
  rnd_rewards : ℕ → Matrix (Fin M) (Fin 1) ℚ
  potrf : (n : ℕ) → Matrix (Fin n) (Fin n) ℚ → Matrix (Fin n) (Fin n) ℚ

/-- Embedding of the loop body of `rollout` from
`prob_mbrl/algorithms/mc_pilco.py`, recursing over the remaining number
of steps with `i` the current step index.  Each iteration:

* `z1 = get_z_rnd(z_mm, i, states.shape)`,
  `z2 = get_z_rnd(z_states, i, states.shape)`,
  `z3 = get_z_rnd(z_rewards, i, [states.shape[0], 1])`;
* `actions = policy(states, resample=resample_policy)`;
* `next_states, rewards = forward(states, actions, ..., z2, z3)`;
* if `mm_states`: `m = next_states.mean(0)`, `deltas = next_states - m`,
  `S = deltas.t().mm(deltas)/M + 1e-6*eye`,
  `next_states = m + z1.mm(S.potrf())`;
* if `mm_rewards`: the same with `rewards` and `z3`;
* append `(states, actions, rewards)` and continue from `next_states`. -/
def rollout_from {M D U : ℕ} (cfg : RolloutCfg M D U)
    (states : Matrix (Fin M) (Fin D) ℚ) (i fuel : ℕ) : List (Step M D U) :=
  match fuel with
  | 0 => []
  | f + 1 =>
    let z1 := get_z_rnd cfg.z_mm i (cfg.rnd_mm i)
    let z2 := get_z_rnd cfg.z_states i (cfg.rnd_states i)
    let z3 := get_z_rnd cfg.z_rewards i (cfg.rnd_rewards i)
    let actions := cfg.policy states cfg.resample_policy
    let fwd := cfg.forward states actions cfg.resample_model z2 z3
    let next_states :=
      if cfg.mm_states then
        let m : Fin D → ℚ := fun j => (∑ a, fwd.1 a j) / (M : ℚ)
        let deltas : Matrix (Fin M) (Fin D) ℚ := fun a j => fwd.1 a j - m j
        let S := (1 / (M : ℚ)) • (deltas.transpose * deltas) +
          (1 / 1000000 : ℚ) • (1 : Matrix (Fin D) (Fin D) ℚ)
        fun a j => m j + (z1 * cfg.potrf D S) a j
      else fwd.1
    let rewards :=
      if cfg.mm_rewards then
        let m : Fin 1 → ℚ := fun j => (∑ a, fwd.2 a j) / (M : ℚ)
        let deltas : Matrix (Fin M) (Fin 1) ℚ := fun a j => fwd.2 a j - m j
        let S := (1 / (M : ℚ)) • (deltas.transpose * deltas) +
          (1 / 1000000 : ℚ) • (1 : Matrix (Fin 1) (Fin 1) ℚ)
        fun a j => m j + (z3 * cfg.potrf 1 S) a j
      else fwd.2
    ⟨states, actions, rewards⟩ :: rollout_from cfg next_states (i + 1) f

/-- `rollout(states, forward, policy, steps, ...)`: run the loop body from
step index `0`. -/
def rollout {M D U : ℕ} (cfg : RolloutCfg M D U)
    (states : Matrix (Fin M) (Fin D) ℚ) (steps : ℕ) : List (Step M D U) :=
  rollout_from cfg states 0 steps

/-! ### mc_pilco.py : loss aggregation inside mc_pilco -/

/-- `states, actions, rewards = (torch.stack(x) for x in zip(*trajs))`:
the stacked rewards tensor of shape `(steps, M, 1)`, as the list of
per-step reward batches. -/
def mc_pilco_stack_rewards {M D U : ℕ} (trajs : List (Step M D U)) :
    List (Matrix (Fin M) (Fin 1) ℚ) :=
  trajs.map Step.rewards

/-- Embedding of
`loss = -rewards.mean(1).mean(0) if maximize else rewards.mean(1).mean(0)`
from `mc_pilco`: mean over the particle axis (dim 1 of the stacked
tensor), then mean over the time axis (dim 0), negated when
`maximize`. -/
def mc_pilco_loss {M : ℕ} (rewards : List (Matrix (Fin M) (Fin 1) ℚ))
    (maximize : Bool) : Fin 1 → ℚ :=
  let meaned : List (Fin 1 → ℚ) :=
    rewards.map (fun r => fun j => (∑ a, r a j) / (M : ℚ))
  let avg : Fin 1 → ℚ :=
    fun j => (meaned.map (fun v => v j)).sum / (meaned.length : ℚ)
  if maximize then (fun j => -(avg j)) else avg

/-- A concrete PEGASUS noise pool (conceptually of length 5, as allocated
by `mc_pilco` for `steps = 3` and `M = 2` particles): row `n` holds the
value `10·n`. -/
def pegasusPool : ℕ → Fin 1 → ℚ := fun n _ => 10 * n

/-! ### models/modules.py : tensors and stochastic dropout layers

Tensors are embedded as a shape plus row-major flattened data.
Elementwise multiplication with numpy/torch-style trailing-shape
broadcasting multiplies flat entry `i` of the left operand by entry
`i % numel(mask)` of the mask.  Random draws (`torch.bernoulli`,
`torch.rand_like`) consume entries from an explicit stream `rng` of
uniform numbers. -/

/-- A numeric tensor: shape and row-major flattened data. -/
structure Tensor where
  shape : List ℕ
  data : List ℚ
deriving DecidableEq

/-- Number of elements of a shape. -/
def numel (s : List ℕ) : ℕ := s.prod

/-- Python's `x.shape[-mask_dims:]`: the trailing `k` dimensions (the
whole shape when `k = 0`, matching the negative-slice semantics). -/
def trailing (s : List ℕ) (k : ℕ) : List ℕ :=
  if k = 0 then s else s.drop (s.length - k)

/-- `x * mask` with trailing-shape broadcasting. -/
def bc_mul (x m : Tensor) : Tensor :=
  ⟨x.shape, x.data.mapIdx (fun i v => v * m.data.getD (i % m.data.length) 0)⟩

/-- `torch.bernoulli(p.expand(shape))`: one Bernoulli(p) draw per
element, consuming uniforms from the head of `rng`. -/
def bernoulli_expand (p : ℚ) (shape : List ℕ) (rng : List ℚ) : Tensor :=
  ⟨shape, (List.range (numel shape)).map (fun idx => if rng.getD idx 0 < p then 1 else 0)⟩

/-- `torch.rand_like` / `torch.rand` of a given shape: one uniform per
element, consuming the head of `rng`. -/
def rand_tensor (shape : List ℕ) (rng : List ℚ) : Tensor :=
  ⟨shape, (List.range (numel shape)).map (fun idx => rng.getD idx 0)⟩

/-- `x.view(-1, *sample_shape)[0]`: the first slice of `x` reshaped to
`sample_shape`. -/
def sample_slice (x : Tensor) (sample_shape : List ℕ) : Tensor :=
  ⟨sample_shape, x.data.take (numel sample_shape)⟩

/-- The mutable state of a `BDropout` layer: the dropout `rate` buffer
and the stored mask buffer `noise`.  The attribute `p` is recomputed as
`1 - rate` at every point the layer reads it, so it is embedded as a
derived value rather than a field. -/
structure BDropout where
  rate : ℚ
  noise : Tensor
deriving DecidableEq

/-- `BDropout.update_noise(x)`:
`self.noise.data = torch.bernoulli(self.p.expand(x.shape))` with
`p = 1 - rate`. -/
def BDropout.update_noise (st : BDropout) (x : Tensor) (rng : List ℚ) :
    BDropout × List ℚ :=
  (⟨st.rate, bernoulli_expand (1 - st.rate) x.shape rng⟩, rng.drop (numel x.shape))

/-- `BDropout.resample()`: `self.update_noise(self.noise)`. -/
def BDropout.resample (st : BDropout) (rng : List ℚ) : BDropout × List ℚ :=
  st.update_noise st.noise rng

/-- Embedding of `BDropout.forward(x, resample=True, mask_dims=2)`:

* `sample_shape = x.shape[-mask_dims:]`;
* if `sample_shape != self.noise.shape`: regenerate the stored mask from
  the first slice of `x` and fall through to `x * self.noise`;
* elif `resample`: return `x *` a fresh transient Bernoulli draw of the
  full input shape, leaving the stored mask unchanged;
* else: return `x * self.noise` (the stored, detached mask).

Returns (output, new layer state, remaining rng stream). -/
def BDropout.forward (st : BDropout) (x : Tensor) (resample : Bool)
    (mask_dims : ℕ) (rng : List ℚ) : Tensor × BDropout × List ℚ :=
  let sample_shape := trailing x.shape mask_dims
  if sample_shape ≠ st.noise.shape then
    let res := st.update_noise (sample_slice x sample_shape) rng
    (bc_mul x res.1.noise, res.1, res.2)
  else if resample then
    (bc_mul x (bernoulli_expand (1 - st.rate) x.shape rng), st, rng.drop (numel x.shape))
  else
    (bc_mul x st.noise, st, rng)

/-- `BDropout.forward` called without an explicit `resample` argument:
the Python default is `resample=True`, `mask_dims=2`. -/
def BDropout.forward_default (st : BDropout) (x : Tensor) (rng : List ℚ) :
    Tensor × BDropout × List ℚ :=
  st.forward x true 2 rng

/-- The scalar functions of the numeric backend used by `CDropout`
(`Tensor.sigmoid`, `Tensor.log`); they are external library code, taken
as parameters of the embedding. -/
structure RealOps where
  sigmoid : ℚ → ℚ
  log : ℚ → ℚ

/-- The mutable state of a `CDropout` layer.  `logit_p` is the learned
keep-probability logit, `temp` the concrete-relaxation temperature,
`noise` the stored base-noise buffer, `concrete_noise` the stored
relaxed mask (`None` until first computed), `training` the module's
training flag.  The `p` buffer written by `update_concrete_noise` is
never read on the embedded paths and is omitted. -/
structure CDropout where
  rate : ℚ
  logit_p : ℚ
  temp : ℚ
  noise : Tensor
  concrete_noise : Option Tensor
  training : Bool
deriving DecidableEq

/-- `CDropout.update_noise(x)`: `self.noise.data = torch.rand_like(x)`. -/
def CDropout.update_noise (st : CDropout) (x : Tensor) (rng : List ℚ) :
    CDropout × List ℚ :=
  ({ st with noise := rand_tensor x.shape rng }, rng.drop (numel x.shape))

/-- `CDropout` inherits `resample()` from `BDropout`
(`self.update_noise(self.noise)`), dispatching to the overridden
`update_noise`. -/
def CDropout.resample (st : CDropout) (rng : List ℚ) : CDropout × List ℚ :=
  st.update_noise st.noise rng

/-- The relaxed mask computed by `CDropout.update_concrete_noise`:
`concrete_p = logit_p + noise.log() - (1 - noise).log()`,
`concrete_noise = (concrete_p / temp).sigmoid()`. -/
def CDropout.concrete_mask (ops : RealOps) (st : CDropout) (noise : Tensor) : Tensor :=
  ⟨noise.shape,
    noise.data.map (fun u =>
      ops.sigmoid ((st.logit_p + ops.log u - ops.log (1 - u)) / st.temp))⟩

/-- `CDropout.update_concrete_noise(noise)`: stores the relaxed mask in
the `concrete_noise` buffer. -/
def CDropout.update_concrete_noise (ops : RealOps) (st : CDropout) (noise : Tensor) :
    CDropout :=
  { st with concrete_noise := some (CDropout.concrete_mask ops st noise) }

/-- Embedding of `CDropout.forward(x, resample=False, mask_dims=2)`:

* `sample_shape = x.shape[-mask_dims:]`; `noise = self.noise`;
* if `resample`: `noise = torch.rand_like(x)`, `resampled = True`
  (the stored base noise is NOT touched);
* elif `concrete_noise is None or sample_shape != concrete_noise.shape`:
  regenerate the stored base noise from the first slice of `x`;
* in training mode recompute (and store) the relaxed mask from `noise`
  every call; in evaluation mode recompute it only when `resampled`,
  otherwise reuse the stored (detached) relaxed mask;
* return `x * concrete_noise`. -/
def CDropout.forward (ops : RealOps) (st : CDropout) (x : Tensor)
    (resample : Bool) (mask_dims : ℕ) (rng : List ℚ) :
    Tensor × CDropout × List ℚ :=
  let sample_shape := trailing x.shape mask_dims
  let step : Tensor × CDropout × Bool × List ℚ :=
    if resample then
      (rand_tensor x.shape rng, st, true, rng.drop (numel x.shape))
    else
      match st.concrete_noise with
      | none =>
        let res := st.update_noise (sample_slice x sample_shape) rng
        (res.1.noise, res.1, true, res.2)
      | some c =>
        if sample_shape ≠ c.shape then
          let res := st.update_noise (sample_slice x sample_shape) rng
          (res.1.noise, res.1, true, res.2)
        else
          (st.noise, st, false, rng)
  let noise := step.1
  let st1 := step.2.1
  let resampled := step.2.2.1
  let rng1 := step.2.2.2
  if st.training then
    (bc_mul x (CDropout.concrete_mask ops st1 noise),
      CDropout.update_concrete_noise ops st1 noise, rng1)
  else if resampled then
    (bc_mul x (CDropout.concrete_mask ops st1 noise),
      CDropout.update_concrete_noise ops st1 noise, rng1)
  else
    (bc_mul x (st1.concrete_noise.getD ⟨[], []⟩), st1, rng1)

/-- `CDropout.forward` called without an explicit `resample` argument:
the Python default is `resample=False`, `mask_dims=2`. -/
def CDropout.forward_default (ops : RealOps) (st : CDropout) (x : Tensor)
    (rng : List ℚ) : Tensor × CDropout × List ℚ :=
  CDropout.forward ops st x false 2 rng

/-! ### models/modules.py : BSequential.regularization_loss

The container's modules are embedded as a list of layer descriptors.  A
stochastic layer is any module exposing `weights_regularizer` (and
possibly `biases_regularizer`); `nn.Linear` and
`nn.modules.conv._ConvNd` modules carry a weight and an optional bias;
any other module is inert for the scan.  The weight and bias parameter
types, and the regularizer functions themselves, are abstract: the scan
never inspects them, it only pairs and evaluates them. -/

/-- A layer of a `BSequential` container as seen by
`regularization_loss`. -/
inductive Layer (W B : Type) where
  | stochastic (wreg : W → ℚ) (breg : Option (B → ℚ))
  | linear (weight : W) (bias : Option B)
  | conv (weight : W) (bias : Option B)
  | plain

/-- The inner loop of `regularization_loss`: scan `modules[i:]` for the
first `nn.Linear` or convolutional module; on it, add
`weights_regularizer(weight)` and, when it has a non-`None` bias and the
stochastic layer has `biases_regularizer`, `biases_regularizer(bias)`;
then break.  Zero when no such module follows. -/
def reg_scan {W B : Type} (wreg : W → ℚ) (breg : Option (B → ℚ)) :
    List (Layer W B) → ℚ
  | [] => 0
  | Layer.linear w b :: _ =>
    wreg w + (match b, breg with
      | some bv, some brf => brf bv
      | _, _ => 0)
  | Layer.conv w b :: _ =>
    wreg w + (match b, breg with
      | some bv, some brf => brf bv
      | _, _ => 0)
  | Layer.stochastic _ _ :: rest => reg_scan wreg breg rest
  | Layer.plain :: rest => reg_scan wreg breg rest

/-- Embedding of `BSequential.regularization_loss`: for every module
with a `weights_regularizer` attribute, scan the module list from that
module's own position onward (`modules[i:]`) and accumulate. -/
def regularization_loss {W B : Type} : List (Layer W B) → ℚ
  | [] => 0
  | Layer.stochastic wreg breg :: rest =>
    reg_scan wreg breg (Layer.stochastic wreg breg :: rest) +
      regularization_loss rest
  | Layer.linear _ _ :: rest => regularization_loss rest
  | Layer.conv _ _ :: rest => regularization_loss rest
  | Layer.plain :: rest => regularization_loss rest

/-- The first affine (`Linear` or convolutional) layer of a list with
its parameters: the specification's "nearest following linear/affine
layer". -/
def first_affine {W B : Type} : List (Layer W B) → Option (W × Option B)
  | [] => none
  | Layer.linear w b :: _ => some (w, b)
  | Layer.conv w b :: _ => some (w, b)
  | Layer.stochastic _ _ :: rest => first_affine rest
  | Layer.plain :: rest => first_affine rest

/-- One stochastic layer's contribution as the specification words it:
its regularizers evaluated on the nearest following affine layer's
parameters, zero when no affine layer follows. -/
def spec_contribution {W B : Type} (wreg : W → ℚ) (breg : Option (B → ℚ))
    (rest : List (Layer W B)) : ℚ :=
  match first_affine rest with
  | none => 0
  | some (w, b) =>
    wreg w + (match b, breg with
      | some bv, some brf => brf bv
      | _, _ => 0)

/-- Whether the container holds any stochastic layer. -/
def has_stochastic {W B : Type} : List (Layer W B) → Bool
  | [] => false
  | Layer.stochastic _ _ :: _ => true
  | _ :: rest => has_stochastic rest

/-- A concrete stochastic-free layer sequence over `W = B = ℚ`. -/
def layersNoStochastic : List (Layer ℚ ℚ) :=
  [Layer.linear 2 (some 3), Layer.plain]

/-- A concrete sequence pairing one stochastic layer with a following
linear layer, over `W = B = ℚ`. -/
def layersOnePair : List (Layer ℚ ℚ) :=
  [Layer.stochastic (fun w => w * w) (some (fun b => b)),
    Layer.plain, Layer.linear 2 (some 3)]

/-! ### models/modules.py : DynamicsModel

2-D tensors of this component are embedded as lists of rows. -/

/-- `torch.cat([a, b], -1)`: rowwise concatenation. -/
def cat_rows (a b : List (List ℚ)) : List (List ℚ) :=
  a.zipWith (fun ra rb => ra ++ rb) b

/-- Elementwise `a + b` of two row-lists (`prev_states + dstates`). -/
def add_rows (a b : List (List ℚ)) : List (List ℚ) :=
  a.zipWith (fun ra rb => ra.zipWith (fun u v => u + v) rb) b

/-- The reward-range part added by `DynamicsModel.set_dataset(X, Y)`:
`D = self.Y.shape[-1] - 1`,
`R = self.Y.index_select(-1, D)` — the column of `Y` at index `D`,
which is its **last** column — then `maxR = R.max()`, `minR = R.min()`.
Returns `(maxR, minR)`. -/
def set_dataset_reward_range (Y : List (List ℚ)) : ℚ × ℚ :=
  let D := (Y.headD []).length - 1
  let R := Y.map (fun row => row.getD D 0)
  (R.foldl max (R.headD 0), R.foldl min (R.headD 0))

/-- The second-to-last column of a row-list, as the claim words the
selected column. -/
def second_to_last_col (Y : List (List ℚ)) : List ℚ :=
  Y.map (fun row => row.getD (row.length - 2) 0)

/-- The last column of a row-list. -/
def last_col (Y : List (List ℚ)) : List ℚ :=
  Y.map (fun row => row.getD (row.length - 1) 0)

/-- The state of a `DynamicsModel` as its `forward` post-processing sees
it: the optional external reward function, and the underlying
`Regressor.forward` pipeline (normalization, network, output density —
`super(DynamicsModel, self).forward`), a parameter of the embedding,
here in the mode where it returns a sampled output tensor. -/
structure DynamicsModel where
  reward_func : Option (List (List ℚ) → List (List ℚ))
  regressor : List (List ℚ) → List (List ℚ)

/-- The `inputs` argument of `DynamicsModel.forward`: either a
`(prev_states, actions)` tuple/list (`inputs_as_tuple`), or an already
concatenated `[prev_states, actions]` tensor. -/
inductive DynInput where
  | tuple (prev_states actions : List (List ℚ))
  | tensor (inputs : List (List ℚ))

/-- Embedding of `DynamicsModel.forward(inputs, separate_outputs,
deltas)` in the sample-returning mode (the branch returning the tuple of
raw distribution parameters is the other, non-sampling mode):

* if `inputs_as_tuple`: `prev_states, actions = inputs` and
  `inputs = torch.cat([prev_states, actions], -1)`;
* `outs = super().forward(inputs)`;
* if not `inputs_as_tuple`: `D = outs.shape[-1]` and
  `prev_states, actions = inputs.split(D, -1)` — `prev_states` is the
  first width-`D` chunk of the input's columns (the second chunk,
  `actions`, is dead from here on);
* if `reward_func` is callable: `dstates = outs` (the whole network
  output) and `rewards = reward_func(prev_states)`;
* else `D = outs.shape[-1] - 1` and `dstates, rewards = outs.split(D, -1)`;
* `states = dstates if deltas else prev_states + dstates`;
* return `(states, rewards)` if `separate_outputs` else their
  concatenation. -/
def DynamicsModel.forward (dm : DynamicsModel) (inputs : DynInput)
    (separate_outputs deltas : Bool) :
    (List (List ℚ) × List (List ℚ)) ⊕ List (List ℚ) :=
  let cat :=
    match inputs with
    | DynInput.tuple prev_states actions => cat_rows prev_states actions
    | DynInput.tensor t => t
  let outs := dm.regressor cat
  let prev_states :=
    match inputs with
    | DynInput.tuple prev_states _ => prev_states
    | DynInput.tensor t =>
      let D := (outs.headD []).length
      t.map (fun (r : List ℚ) => r.take D)
  let sr :=
    match dm.reward_func with
    | some f => (outs, f prev_states)
    | none =>
      let D := (outs.headD []).length - 1
      (outs.map (fun (r : List ℚ) => r.take D),
        outs.map (fun (r : List ℚ) => r.drop D))
  let states := if deltas then sr.1 else add_rows prev_states sr.1
  if separate_outputs then Sum.inl (states, sr.2)
  else Sum.inr (cat_rows states sr.2)

/-! ### models/modules.py : Policy -/

/-- The state of a `Policy`: output scale and bias, and the wrapped
network (consuming the preprocessed input and the effective resample
flag). -/
structure Policy where
  scale : ℚ
  bias : ℚ
  model : List (List ℚ) → Bool → List (List ℚ)

/-- Embedding of `Policy.forward(x, **kwargs)` on tensor input:
`kwargs['resample'] = kwargs.get('resample', True)` — an omitted
`resample` keyword becomes `True` — then
`u = scale * model(to_complex(x, angle_dims), **kwargs) + bias`.
`to_complex` lives in `prob_mbrl.utils` (outside the embedded sources)
and is the parameter `tc`; the caller's optional keyword is the
`Option Bool` argument. -/
def Policy.forward (tc : List (List ℚ) → List (List ℚ)) (p : Policy)
    (x : List (List ℚ)) (resample : Option Bool) : List (List ℚ) :=
  let r := resample.getD true
  (p.model (tc x) r).map (fun row => row.map (fun v => p.scale * v + p.bias))

/-- A reachable `CDropout` state that desynchronizes the two stored
masks: the base noise buffer is 0-dimensional, as `BDropout.__init__`
creates it (`torch.bernoulli(1.0 - rate)` is a scalar), while the stored
relaxed mask has shape `[1, 2]`, as a training-mode
`forward(x, resample=True)` on a `[1, 2]` input leaves it (it stores a
full-input-shape relaxed mask without touching the base noise).
`sigmoid` and `log` are instantiated with the identity, `logit_p = 0`,
`temp = 1`. -/
def cdropDesync : CDropout :=
  ⟨1/2, 0, 1, ⟨[], [0]⟩, some ⟨[1, 2], [5, 7]⟩, true⟩

/-- `resample()` on `cdropDesync` with uniform stream `[9, 1, 2, 3]`:
redraws the 0-dim base noise (one uniform, value 9). -/
def cdropDesyncR : CDropout × List ℚ :=
  CDropout.resample cdropDesync [9, 1, 2, 3]

/-- First `forward(x, resample=False)` after the resample, on the input
`x` of shape `[1, 2]` whose trailing shape matches the stored relaxed
mask: reuses the stale 0-dim base noise. -/
def cdropDesyncF1 : Tensor × CDropout × List ℚ :=
  CDropout.forward ⟨fun q => q, fun q => q⟩ cdropDesyncR.1
    ⟨[1, 2], [1, 1]⟩ false 2 cdropDesyncR.2

/-- Second `forward(x, resample=False)` on the same input: now the
stored relaxed mask is 0-dim, the shape check fails, and the base noise
is regenerated from two fresh uniforms. -/
def cdropDesyncF2 : Tensor × CDropout × List ℚ :=
  CDropout.forward ⟨fun q => q, fun q => q⟩ cdropDesyncF1.2.1
    ⟨[1, 2], [1, 1]⟩ false 2 cdropDesyncF1.2.2

/-- Summing a mapped list is summing over positions. -/
theorem list_map_sum_eq_range_sum {α : Type} (l : List α) (g : α → ℚ) (d : α) :
    (l.map g).sum = ∑ t ∈ Finset.range l.length, g (l.getD t d) := by
  induction l with
  | nil => simp
  | cons x xs ih =>
    simp only [List.map_cons, List.sum_cons, List.length_cons,
      Finset.sum_range_succ']
    simp only [List.getD_cons_succ, List.getD_cons_zero, ih]
    ring

/-- Claim C1: the claim says the noise fetched for step `i` consists of
pool entries at indices wrapping modulo the *pool length*.  The code
(`idxs %= shape[0]`) wraps modulo the number of requested rows (the
particle count) instead.  Evaluated at a pool of length 5 with `M = 2`
requested rows and step index `i = 1`: the code fetches pool rows
`[1 % 2, 2 % 2] = [1, 0]` (values 10, 0) while the modulo-pool-length
rule fetches rows `[1 % 5, 2 % 5] = [1, 2]` (values 10, 20); the two
disagree.  (The pool rows `M, ..., M+steps-1` allocated by `mc_pilco`
are never read by the code.) -/
theorem claim_C1_get_z_rnd_modulo_divergence :
    get_z_rnd (some pegasusPool) 1 (0 : Matrix (Fin 2) (Fin 1) ℚ) =
      (fun k _ => if k.val = 0 then 10 else 0) ∧
    (get_z_rnd_specRule pegasusPool 5 1 : Matrix (Fin 2) (Fin 1) ℚ) =
      (fun k _ => if k.val = 0 then 10 else 20) ∧
    get_z_rnd (some pegasusPool) 1 (0 : Matrix (Fin 2) (Fin 1) ℚ) ≠
      (get_z_rnd_specRule pegasusPool 5 1 : Matrix (Fin 2) (Fin 1) ℚ) := by
  refine ⟨?_, ?_, ?_⟩
  · funext k j
    fin_cases k <;> norm_num [get_z_rnd, pegasusPool]
  · funext k j
    fin_cases k <;> norm_num [get_z_rnd_specRule, pegasusPool]
  · intro h
    have h2 := congrFun (congrFun h 1) 0
    norm_num [get_z_rnd, get_z_rnd_specRule, pegasusPool] at h2

/-- Claim C2: in a rollout step with `mm_states = true`, the particle
batch passed to the next step equals `m + z1 · L` with `m` the
elementwise mean of `next_states` over the particle axis, `L` the
Cholesky factor of `(deltasᵀ deltas)/M + 1e-6·I` where
`deltas = next_states - m`; and with `mm_rewards = true` the recorded
reward batch is analogously `m_r + z3 · L_r`. -/
theorem claim_C2_moment_matching {M D U : ℕ}
    (fwd : Matrix (Fin M) (Fin D) ℚ → Matrix (Fin M) (Fin U) ℚ → Bool →
      Matrix (Fin M) (Fin D) ℚ → Matrix (Fin M) (Fin 1) ℚ →
      Matrix (Fin M) (Fin D) ℚ × Matrix (Fin M) (Fin 1) ℚ)
    (pol : Matrix (Fin M) (Fin D) ℚ → Bool → Matrix (Fin M) (Fin U) ℚ)
    (rm rp : Bool)
    (zmm zst : Option (ℕ → Fin D → ℚ)) (zrw : Option (ℕ → Fin 1 → ℚ))
    (r1 r2 : ℕ → Matrix (Fin M) (Fin D) ℚ) (r3 : ℕ → Matrix (Fin M) (Fin 1) ℚ)
    (chol : (n : ℕ) → Matrix (Fin n) (Fin n) ℚ → Matrix (Fin n) (Fin n) ℚ)
    (states : Matrix (Fin M) (Fin D) ℚ) (i f : ℕ) :
    let cfg : RolloutCfg M D U :=
      ⟨fwd, pol, rm, rp, true, true, zmm, zst, zrw, r1, r2, r3, chol⟩
    let z1 := get_z_rnd zmm i (r1 i)
    let z2 := get_z_rnd zst i (r2 i)
    let z3 := get_z_rnd zrw i (r3 i)
    let acts := pol states rp
    let next_states := (fwd states acts rm z2 z3).1
    let rewards := (fwd states acts rm z2 z3).2
    let m : Fin D → ℚ := fun j => (∑ a, next_states a j) / (M : ℚ)
    let deltas : Matrix (Fin M) (Fin D) ℚ := fun a j => next_states a j - m j
    let L := chol D ((1 / (M : ℚ)) • (deltas.transpose * deltas) +
      (1 / 1000000 : ℚ) • 1)
    let mr : Fin 1 → ℚ := fun j => (∑ a, rewards a j) / (M : ℚ)
    let deltasr : Matrix (Fin M) (Fin 1) ℚ := fun a j => rewards a j - mr j
    let Lr := chol 1 ((1 / (M : ℚ)) • (deltasr.transpose * deltasr) +
      (1 / 1000000 : ℚ) • 1)
    ((rollout_from cfg states i (f + 2)).getD 1 (Step.zero M D U)).states =
      (fun a j => m j + (z1 * L) a j) ∧
    ((rollout_from cfg states i (f + 2)).getD 0 (Step.zero M D U)).rewards =
      (fun a j => mr j + (z3 * Lr) a j) := by
  exact ⟨rfl, rfl⟩

/-- Claim C3: the scalar objective of one `mc_pilco` iteration, on a
trajectory whose rewards are stacked into a `(steps, M, 1)` tensor, is
the mean over the particle axis followed by the mean over the time axis,
negated exactly when `maximize = true`. -/
theorem claim_C3_loss_aggregation {M D U : ℕ} (trajs : List (Step M D U))
    (mx : Bool) (j : Fin 1) :
    mc_pilco_loss (mc_pilco_stack_rewards trajs) mx j =
      (if mx then -1 else 1) *
        ((∑ t ∈ Finset.range trajs.length,
            (∑ a, (trajs.getD t (Step.zero M D U)).rewards a j) / (M : ℚ)) /
          (trajs.length : ℚ)) := by
  have key : (trajs.map ((fun v => v j) ∘
        (fun r => fun j => (∑ a, r a j) / (M : ℚ)) ∘ Step.rewards)).sum =
      ∑ t ∈ Finset.range trajs.length,
        (∑ a, (trajs.getD t (Step.zero M D U)).rewards a j) / (M : ℚ) := by
    rw [list_map_sum_eq_range_sum _ _ (Step.zero M D U)]
    simp [Function.comp]
  cases mx <;>
    simp only [mc_pilco_loss, mc_pilco_stack_rewards, List.map_map,
      List.length_map, Bool.false_eq_true, if_false, if_true, key] <;>
    ring

/-- Claim C4: when the input's trailing feature shape equals the stored
mask shape of a `BDropout` layer, `forward(x, resample=False)` returns
`x` times the stored mask and leaves the layer state (and the random
stream) untouched, so the mask is reused unchanged across such calls;
`forward(x, resample=True)` returns `x` times a freshly drawn
Bernoulli(p) mask of the full input shape that is not stored: the layer
state is unchanged, only the random stream advances. -/
theorem claim_C4_bdropout_mask_reuse (st : BDropout) (x : Tensor) (k : ℕ)
    (rng : List ℚ) (h : trailing x.shape k = st.noise.shape) :
    st.forward x false k rng = (bc_mul x st.noise, st, rng) ∧
    st.forward x true k rng =
      (bc_mul x (bernoulli_expand (1 - st.rate) x.shape rng), st,
        rng.drop (numel x.shape)) := by
  constructor <;> simp [BDropout.forward, h]

/-- Witness for C4 at a concrete layer and input. -/
theorem claim_C4_bdropout_mask_reuse_witness :
    trailing (Tensor.mk [1, 2] [3, 4]).shape 2 =
      (BDropout.mk (1/2) ⟨[1, 2], [1, 0]⟩).noise.shape ∧
    ((BDropout.mk (1/2) ⟨[1, 2], [1, 0]⟩).forward ⟨[1, 2], [3, 4]⟩ false 2 [0, 1] =
      (bc_mul ⟨[1, 2], [3, 4]⟩ ⟨[1, 2], [1, 0]⟩, BDropout.mk (1/2) ⟨[1, 2], [1, 0]⟩, [0, 1]) ∧
    (BDropout.mk (1/2) ⟨[1, 2], [1, 0]⟩).forward ⟨[1, 2], [3, 4]⟩ true 2 [0, 1] =
      (bc_mul ⟨[1, 2], [3, 4]⟩
          (bernoulli_expand (1 - (1/2)) [1, 2] [0, 1]),
        BDropout.mk (1/2) ⟨[1, 2], [1, 0]⟩,
        ([0, 1] : List ℚ).drop (numel [1, 2]))) :=
  ⟨rfl, claim_C4_bdropout_mask_reuse _ _ 2 _ rfl⟩

/-- Claim C5 as stated is false for `CDropout`: when `resample=True` is
passed, the transient `rand_like(x)` draw preempts the shape check, so a
shape mismatch between the stored masks and the input's trailing shape
does NOT trigger regeneration of the stored mask to the new trailing
shape.  Concretely, for a layer in training mode whose stored base noise
and relaxed mask have shape `[3]` and an input of shape `[2,1,2]`
(trailing shape `[1,2]`), `forward(x, resample=True)` leaves the base
noise buffer at shape `[3]` and stores a relaxed mask of the full input
shape `[2,1,2]`, not of the trailing shape `[1,2]`. -/
theorem claim_C5_counterexample :
    (trailing ([2, 1, 2] : List ℕ) 2 ≠ ([3] : List ℕ)) ∧
    ((CDropout.forward ⟨fun q => q, fun q => q⟩
        ⟨1/2, 0, 1/10, ⟨[3], [1, 1, 1]⟩, some ⟨[3], [1, 1, 1]⟩, true⟩
        ⟨[2, 1, 2], [1, 2, 3, 4]⟩ true 2 [0, 0, 0, 0]).2.1.noise =
      (⟨[3], [1, 1, 1]⟩ : Tensor)) ∧
    ((CDropout.forward ⟨fun q => q, fun q => q⟩
        ⟨1/2, 0, 1/10, ⟨[3], [1, 1, 1]⟩, some ⟨[3], [1, 1, 1]⟩, true⟩
        ⟨[2, 1, 2], [1, 2, 3, 4]⟩ true 2 [0, 0, 0, 0]).2.1.concrete_noise.map
          Tensor.shape = some [2, 1, 2]) := by
  refine ⟨by decide, rfl, rfl⟩

/-- Claim C5 amended: for `BDropout` a trailing-shape mismatch always
triggers regeneration of the stored mask before (and instead of) any
requested resample logic, whatever the value of `resample`; for
`CDropout` the mismatch check is only reached when `resample=False`, in
which case the stored base noise is regenerated to the new trailing
shape (when `resample=True` the transient draw preempts the check).
Neither layer raises an error on a mismatch. -/
theorem claim_C5_amended_mismatch_regeneration :
    (∀ (st : BDropout) (x : Tensor) (b : Bool) (k : ℕ) (rng : List ℚ),
      trailing x.shape k ≠ st.noise.shape →
      st.forward x b k rng =
        (bc_mul x (bernoulli_expand (1 - st.rate) (trailing x.shape k) rng),
          ⟨st.rate, bernoulli_expand (1 - st.rate) (trailing x.shape k) rng⟩,
          rng.drop (numel (trailing x.shape k)))) ∧
    (∀ (ops : RealOps) (st : CDropout) (x : Tensor) (k : ℕ) (rng : List ℚ),
      (∀ c, st.concrete_noise = some c → trailing x.shape k ≠ c.shape) →
      (CDropout.forward ops st x false k rng).2.1.noise =
        rand_tensor (trailing x.shape k) rng) := by
  constructor
  · intro st x b k rng h
    simp [BDropout.forward, h, BDropout.update_noise, sample_slice, bernoulli_expand]
  · intro ops st x k rng h
    cases hc : st.concrete_noise with
    | none =>
      cases htr : st.training <;>
        simp [CDropout.forward, hc, htr, CDropout.update_noise,
          CDropout.update_concrete_noise, sample_slice, rand_tensor]
    | some c =>
      have hcs := h c hc
      cases htr : st.training <;>
        simp [CDropout.forward, hc, htr, hcs, CDropout.update_noise,
          CDropout.update_concrete_noise, sample_slice, rand_tensor]

/-- Witness for the amended C5 at concrete layers and inputs. -/
theorem claim_C5_amended_witness :
    (trailing (Tensor.mk [2, 2] [1, 2, 3, 4]).shape 2 ≠
      (BDropout.mk (1/2) ⟨[3], [1, 0, 1]⟩).noise.shape ∧
      (BDropout.mk (1/2) ⟨[3], [1, 0, 1]⟩).forward ⟨[2, 2], [1, 2, 3, 4]⟩ true 2 [0, 1, 0, 1] =
        (bc_mul ⟨[2, 2], [1, 2, 3, 4]⟩
            (bernoulli_expand (1 - (1/2)) (trailing [2, 2] 2) [0, 1, 0, 1]),
          ⟨1/2, bernoulli_expand (1 - (1/2)) (trailing [2, 2] 2) [0, 1, 0, 1]⟩,
          ([0, 1, 0, 1] : List ℚ).drop (numel (trailing [2, 2] 2)))) ∧
    ((∀ c, (none : Option Tensor) = some c → trailing ([2, 2] : List ℕ) 2 ≠ c.shape) ∧
      (CDropout.forward ⟨fun q => q, fun q => q⟩
          ⟨1/2, 0, 1/10, ⟨[3], [1, 1, 1]⟩, none, true⟩
          ⟨[2, 2], [1, 2, 3, 4]⟩ false 2 [0, 0, 0, 0]).2.1.noise =
        rand_tensor (trailing [2, 2] 2) [0, 0, 0, 0]) :=
  ⟨⟨by decide,
      claim_C5_amended_mismatch_regeneration.1 ⟨1/2, ⟨[3], [1, 0, 1]⟩⟩
        ⟨[2, 2], [1, 2, 3, 4]⟩ true 2 [0, 1, 0, 1] (by decide)⟩,
    ⟨fun _c hc => (nomatch hc),
      claim_C5_amended_mismatch_regeneration.2 ⟨fun q => q, fun q => q⟩
        ⟨1/2, 0, 1/10, ⟨[3], [1, 1, 1]⟩, none, true⟩
        ⟨[2, 2], [1, 2, 3, 4]⟩ 2 [0, 0, 0, 0] (fun c hc => nomatch hc)⟩⟩

/-- `CDropout.forward` with `resample=False` when the stored relaxed
mask is absent or its shape mismatches the input's trailing shape: the
base noise is regenerated and the relaxed mask recomputed from it, in
training and evaluation mode alike (`resampled` is set). -/
theorem cdropout_forward_regen (ops : RealOps) (st : CDropout) (x : Tensor)
    (k : ℕ) (rng : List ℚ)
    (h : ∀ c, st.concrete_noise = some c → trailing x.shape k ≠ c.shape) :
    CDropout.forward ops st x false k rng =
      (bc_mul x
          (CDropout.concrete_mask ops st (rand_tensor (trailing x.shape k) rng)),
        CDropout.update_concrete_noise ops
          { st with noise := rand_tensor (trailing x.shape k) rng }
          (rand_tensor (trailing x.shape k) rng),
        rng.drop (numel (trailing x.shape k))) := by
  cases hc : st.concrete_noise with
  | none =>
    cases htr : st.training <;>
      simp [CDropout.forward, hc, htr, CDropout.update_noise, sample_slice,
        rand_tensor, CDropout.concrete_mask, CDropout.update_concrete_noise]
  | some c =>
    have hne := h c hc
    cases htr : st.training <;>
      simp [CDropout.forward, hc, htr, hne, CDropout.update_noise, sample_slice,
        rand_tensor, CDropout.concrete_mask, CDropout.update_concrete_noise]

/-- `CDropout.forward` with `resample=False` when the stored relaxed
mask exists and matches the input's trailing shape: in training mode the
relaxed mask is recomputed from the stored base noise; in evaluation
mode the stored relaxed mask is reused and the state is untouched. -/
theorem cdropout_forward_reuse (ops : RealOps) (st : CDropout) (x : Tensor)
    (k : ℕ) (rng : List ℚ) (c : Tensor) (hc : st.concrete_noise = some c)
    (hs : trailing x.shape k = c.shape) :
    CDropout.forward ops st x false k rng =
      if st.training then
        (bc_mul x (CDropout.concrete_mask ops st st.noise),
          CDropout.update_concrete_noise ops st st.noise, rng)
      else (bc_mul x c, st, rng) := by
  cases htr : st.training <;> simp [CDropout.forward, hc, hs, htr]

/-- Claim C7 as stated is false for `CDropout`: from a reachable state
in training mode whose stored relaxed mask matches the input's trailing
shape while the stored base noise does not (the base noise is 0-dim from
the constructor, and a training-mode `forward(x, resample=True)` stores
a full-input-shape relaxed mask without touching it), `resample()`
followed by two `forward(x, resample=False)` calls returns two different
outputs: the first call reuses the stale 0-dim base noise, the second
hits the shape mismatch and regenerates.  Concretely, with
`sigmoid = log = id`, `logit_p = 0`, `temp = 1`, base noise of shape
`[]`, stored relaxed mask of shape `[1, 2]`, input `x` of shape
`[1, 2]` and uniform stream `[9, 1, 2, 3]`, the first call returns
`[17, 17]` and the second `[1, 3]`. -/
theorem claim_C7_counterexample : cdropDesyncF2.1 ≠ cdropDesyncF1.1 := by
  have e1 : cdropDesyncF1.1 =
      ⟨[1, 2], [1 * ((0 + 9 - (1 - 9)) / 1), 1 * ((0 + 9 - (1 - 9)) / 1)]⟩ := rfl
  have e2 : cdropDesyncF2.1 =
      ⟨[1, 2], [1 * ((0 + 1 - (1 - 1)) / 1), 1 * ((0 + 2 - (1 - 2)) / 1)]⟩ := rfl
  rw [e1, e2]
  norm_num [Tensor.mk.injEq]

/-- Claim C7 amended: mask-reuse determinism.  After one `resample()`,
two consecutive `forward(x, resample=False)` calls with no resample in
between return identical outputs: for `BDropout` unconditionally; for
`CDropout` in evaluation mode unconditionally, and in training mode
provided any stored relaxed mask has the same shape as the stored base
noise buffer (the counterexample above is exactly a training-mode state
violating that). -/
theorem claim_C7_two_run_determinism :
    (∀ (st : BDropout) (x : Tensor) (k : ℕ) (rng : List ℚ),
      ((((st.resample rng).1.forward x false k (st.resample rng).2).2.1.forward
          x false k
          (((st.resample rng).1.forward x false k (st.resample rng).2).2.2)).1 =
        ((st.resample rng).1.forward x false k (st.resample rng).2).1)) ∧
    (∀ (ops : RealOps) (st : CDropout) (x : Tensor) (k : ℕ) (rng : List ℚ),
      (st.training = true →
        ∀ c, st.concrete_noise = some c → c.shape = st.noise.shape) →
      ((CDropout.forward ops
          (CDropout.forward ops (CDropout.resample st rng).1 x false k
            (CDropout.resample st rng).2).2.1 x false k
          (CDropout.forward ops (CDropout.resample st rng).1 x false k
            (CDropout.resample st rng).2).2.2).1 =
        (CDropout.forward ops (CDropout.resample st rng).1 x false k
          (CDropout.resample st rng).2).1)) := by
  constructor
  · intro st x k rng
    by_cases hs : trailing x.shape k = (st.resample rng).1.noise.shape
    · simp [BDropout.forward, hs]
    · simp [BDropout.forward, hs, BDropout.update_noise, bernoulli_expand,
        sample_slice]
  · intro ops st x k rng h
    have hres : (CDropout.resample st rng).1 =
        { st with noise := rand_tensor st.noise.shape rng } := rfl
    by_cases hregen : ∀ c, st.concrete_noise = some c →
        trailing x.shape k ≠ c.shape
    · -- first call regenerates; the second reuses what it stored
      have h1 : ∀ c, (CDropout.resample st rng).1.concrete_noise = some c →
          trailing x.shape k ≠ c.shape := hregen
      rw [cdropout_forward_regen ops _ x k _ h1]
      rw [cdropout_forward_reuse ops
        (CDropout.update_concrete_noise ops
          { (CDropout.resample st rng).1 with
            noise := rand_tensor (trailing x.shape k) (CDropout.resample st rng).2 }
          (rand_tensor (trailing x.shape k) (CDropout.resample st rng).2))
        x k
        ((CDropout.resample st rng).2.drop (numel (trailing x.shape k)))
        (CDropout.concrete_mask ops (CDropout.resample st rng).1
          (rand_tensor (trailing x.shape k) (CDropout.resample st rng).2))
        rfl rfl]
      cases htr : st.training <;>
        simp [CDropout.update_concrete_noise, CDropout.concrete_mask,
          CDropout.resample, CDropout.update_noise, htr]
    · -- the stored relaxed mask matches the trailing shape
      push_neg at hregen
      obtain ⟨c, hc, hs⟩ := hregen
      have hc1 : (CDropout.resample st rng).1.concrete_noise = some c := hc
      have httr : (CDropout.resample st rng).1.training = st.training := rfl
      rw [cdropout_forward_reuse ops _ x k _ c hc1 hs]
      cases htr : st.training with
      | false =>
        simp only [httr, htr, Bool.false_eq_true, if_false]
        rw [cdropout_forward_reuse ops _ x k _ c hc1 hs]
        simp [httr, htr]
      | true =>
        have hcn : c.shape = st.noise.shape := h htr c hc
        simp only [httr, htr, if_true]
        have hs2 : trailing x.shape k =
            (CDropout.concrete_mask ops (CDropout.resample st rng).1
              (CDropout.resample st rng).1.noise).shape := by
          simp [CDropout.concrete_mask, hres, rand_tensor, hs, hcn]
        rw [cdropout_forward_reuse ops _ x k _ _ rfl hs2]
        simp [CDropout.update_concrete_noise, CDropout.concrete_mask, httr, htr]

/-- Witness for C7 at concrete layers and inputs. -/
theorem claim_C7_witness :
    ((((BDropout.mk (1/2) ⟨[2], [1, 0]⟩).resample [0, 1]).1.forward
        ⟨[1, 2], [3, 4]⟩ false 2
        (((BDropout.mk (1/2) ⟨[2], [1, 0]⟩).resample [0, 1]).2)).2.1.forward
        ⟨[1, 2], [3, 4]⟩ false 2
        ((((BDropout.mk (1/2) ⟨[2], [1, 0]⟩).resample [0, 1]).1.forward
          ⟨[1, 2], [3, 4]⟩ false 2
          (((BDropout.mk (1/2) ⟨[2], [1, 0]⟩).resample [0, 1]).2)).2.2)).1 =
      (((BDropout.mk (1/2) ⟨[2], [1, 0]⟩).resample [0, 1]).1.forward
        ⟨[1, 2], [3, 4]⟩ false 2
        (((BDropout.mk (1/2) ⟨[2], [1, 0]⟩).resample [0, 1]).2)).1 ∧
    (((CDropout.mk (1/2) 0 (1/10) ⟨[2], [1, 1]⟩ none true).training = true →
        ∀ c, (none : Option Tensor) = some c →
        c.shape = (Tensor.mk [2] [1, 1]).shape) ∧
      ((CDropout.forward ⟨fun q => q, fun q => q⟩
          (CDropout.forward ⟨fun q => q, fun q => q⟩
            (CDropout.resample ⟨1/2, 0, 1/10, ⟨[2], [1, 1]⟩, none, true⟩ [0, 1]).1
            ⟨[1, 2], [3, 4]⟩ false 2
            (CDropout.resample ⟨1/2, 0, 1/10, ⟨[2], [1, 1]⟩, none, true⟩ [0, 1]).2).2.1
          ⟨[1, 2], [3, 4]⟩ false 2
          (CDropout.forward ⟨fun q => q, fun q => q⟩
            (CDropout.resample ⟨1/2, 0, 1/10, ⟨[2], [1, 1]⟩, none, true⟩ [0, 1]).1
            ⟨[1, 2], [3, 4]⟩ false 2
            (CDropout.resample ⟨1/2, 0, 1/10, ⟨[2], [1, 1]⟩, none, true⟩ [0, 1]).2).2.2).1 =
        (CDropout.forward ⟨fun q => q, fun q => q⟩
          (CDropout.resample ⟨1/2, 0, 1/10, ⟨[2], [1, 1]⟩, none, true⟩ [0, 1]).1
          ⟨[1, 2], [3, 4]⟩ false 2
          (CDropout.resample ⟨1/2, 0, 1/10, ⟨[2], [1, 1]⟩, none, true⟩ [0, 1]).2).1)) :=
  ⟨claim_C7_two_run_determinism.1 ⟨1/2, ⟨[2], [1, 0]⟩⟩ ⟨[1, 2], [3, 4]⟩ 2 [0, 1],
    ⟨fun _ _c hc => (nomatch hc),
      claim_C7_two_run_determinism.2 ⟨fun q => q, fun q => q⟩
        ⟨1/2, 0, 1/10, ⟨[2], [1, 1]⟩, none, true⟩ ⟨[1, 2], [3, 4]⟩ 2 [0, 1]
        (fun _ _c hc => (nomatch hc))⟩⟩

/-- The inner scan computes exactly the nearest-following-affine
contribution. -/
theorem reg_scan_eq_spec_contribution {W B : Type} (wreg : W → ℚ)
    (breg : Option (B → ℚ)) (l : List (Layer W B)) :
    reg_scan wreg breg l = spec_contribution wreg breg l := by
  induction l with
  | nil => rfl
  | cons m rest ih =>
    cases m <;> simp [reg_scan, spec_contribution, first_affine, ih]

/-- Claim C6: `regularization_loss` is the sum, over the stochastic
layers, of the weight regularizer (plus the bias regularizer when the
paired layer has a bias) evaluated on the first affine layer following
that stochastic layer in the sequence; a stochastic layer with no
following affine layer contributes zero, and a sequence with no
stochastic layer yields exactly zero. -/
theorem claim_C6_regularization_pairing {W B : Type} (layers : List (Layer W B)) :
    (regularization_loss layers =
      ∑ i ∈ Finset.range layers.length,
        (match layers.getD i Layer.plain with
         | Layer.stochastic wreg breg =>
             spec_contribution wreg breg (layers.drop (i + 1))
         | _ => 0)) ∧
    (has_stochastic layers = false → regularization_loss layers = 0) := by
  constructor
  · induction layers with
    | nil => rfl
    | cons m rest ih =>
      rw [List.length_cons, Finset.sum_range_succ']
      simp only [List.getD_cons_succ, List.getD_cons_zero, List.drop_succ_cons,
        List.drop_zero]
      cases m <;>
        simp [regularization_loss, reg_scan, reg_scan_eq_spec_contribution, ih,
          add_comm]
  · induction layers with
    | nil => intro; rfl
    | cons m rest ih =>
      intro hs
      cases m <;> simp_all [has_stochastic, regularization_loss]

/-- Witness for C6 at a concrete stochastic-free layer sequence (and,
on the sum side, at a sequence pairing one stochastic layer with a
following linear layer). -/
theorem claim_C6_witness :
    (has_stochastic layersNoStochastic = false ∧
      regularization_loss layersNoStochastic = 0) ∧
    regularization_loss layersOnePair =
      ∑ i ∈ Finset.range layersOnePair.length,
        (match layersOnePair.getD i Layer.plain with
         | Layer.stochastic wreg breg =>
             spec_contribution wreg breg (layersOnePair.drop (i + 1))
         | _ => 0) :=
  ⟨⟨rfl, (claim_C6_regularization_pairing layersNoStochastic).2 rfl⟩,
    (claim_C6_regularization_pairing layersOnePair).1⟩

/-- Claim C8 as stated is false: `set_dataset` selects the column of `Y`
at index `Y.shape[-1] - 1`, its last column, not the second-to-last one.
On `Y = [[1, 5], [2, 0]]` the code stores `maxR = 5, minR = 0` (last
column `[5, 0]`), while the second-to-last column `[1, 2]` has maximum
`2` and minimum `1`. -/
theorem claim_C8_counterexample :
    set_dataset_reward_range [[1, 5], [2, 0]] = (5, 0) ∧
    second_to_last_col [[1, 5], [2, 0]] = [1, 2] ∧
    ((second_to_last_col [[1, 5], [2, 0]]).foldl max
        ((second_to_last_col [[1, 5], [2, 0]]).headD 0),
      (second_to_last_col [[1, 5], [2, 0]]).foldl min
        ((second_to_last_col [[1, 5], [2, 0]]).headD 0)) = (2, 1) ∧
    set_dataset_reward_range [[1, 5], [2, 0]] ≠ (2, 1) := by
  refine ⟨by decide, by decide, by decide, by decide⟩

/-- Claim C8 amended: for every rectangular target matrix `Y` (all rows
of width `E`), `set_dataset` sets `maxR` and `minR` to the maximum and
minimum of the **last** column of `Y`. -/
theorem claim_C8_amended_last_column (Y : List (List ℚ)) (E : ℕ)
    (hrect : ∀ r ∈ Y, r.length = E) :
    set_dataset_reward_range Y =
      ((last_col Y).foldl max ((last_col Y).headD 0),
        (last_col Y).foldl min ((last_col Y).headD 0)) := by
  have hcol : Y.map (fun row => row.getD ((Y.headD []).length - 1) 0) =
      last_col Y := by
    cases Y with
    | nil => rfl
    | cons y ys =>
      apply List.map_congr_left
      intro r hr
      have h1 : y.length = E := hrect y (by simp)
      have h2 : r.length = E := hrect r hr
      simp [h1, h2]
  simp only [set_dataset_reward_range, hcol]

/-- Witness for the amended C8 at a concrete dataset. -/
theorem claim_C8_amended_witness :
    (∀ r ∈ ([[1, 5], [2, 0]] : List (List ℚ)), r.length = 2) ∧
    set_dataset_reward_range [[1, 5], [2, 0]] =
      ((last_col [[1, 5], [2, 0]]).foldl max
          ((last_col [[1, 5], [2, 0]]).headD 0),
        (last_col [[1, 5], [2, 0]]).foldl min
          ((last_col [[1, 5], [2, 0]]).headD 0)) :=
  ⟨by decide, claim_C8_amended_last_column [[1, 5], [2, 0]] 2 (by decide)⟩

/-- Claim C9: in every sample-returning call of `DynamicsModel.forward`
with an external reward function configured — tuple input or
pre-concatenated input, separate or concatenated outputs, deltas or
absolute states — the rewards are `reward_func` applied to the
**previous** states (the state portion of the input: the given
`prev_states` for a tuple input, the first `outs.shape[-1]` columns for
a pre-concatenated input), not to the predicted next states, and the
entire network output is interpreted as state deltas — no reward slice
is split off. -/
theorem claim_C9_external_reward_uses_prev_states
    (reg : List (List ℚ) → List (List ℚ))
    (f : List (List ℚ) → List (List ℚ))
    (prev_states actions inputs : List (List ℚ)) (sep deltas : Bool) :
    (DynamicsModel.forward ⟨some f, reg⟩ (DynInput.tuple prev_states actions)
        sep deltas =
      (let outs := reg (cat_rows prev_states actions)
       let states := if deltas then outs else add_rows prev_states outs
       if sep then Sum.inl (states, f prev_states)
       else Sum.inr (cat_rows states (f prev_states)))) ∧
    (DynamicsModel.forward ⟨some f, reg⟩ (DynInput.tensor inputs) sep deltas =
      (let outs := reg inputs
       let prev := inputs.map (fun (r : List ℚ) => r.take (outs.headD []).length)
       let states := if deltas then outs else add_rows prev outs
       if sep then Sum.inl (states, f prev)
       else Sum.inr (cat_rows states (f prev)))) :=
  ⟨rfl, rfl⟩

/-- Claim C10: the `resample` defaults.  `BDropout.forward` defaults to
`resample=True`, so a call without the argument on a shape-matching
input draws a fresh transient Bernoulli mask (consuming the random
stream) and leaves the stored mask untouched; `CDropout.forward`
defaults to `resample=False`, so such a call reuses the stored base
noise (consuming nothing from the random stream); and `Policy.forward`
injects `resample=True` into its model call when the caller omits it. -/
theorem claim_C10_resample_defaults :
    (∀ (st : BDropout) (x : Tensor) (rng : List ℚ),
      trailing x.shape 2 = st.noise.shape →
      st.forward_default x rng =
        (bc_mul x (bernoulli_expand (1 - st.rate) x.shape rng), st,
          rng.drop (numel x.shape))) ∧
    (∀ (ops : RealOps) (st : CDropout) (x : Tensor) (rng : List ℚ) (c : Tensor),
      st.concrete_noise = some c → trailing x.shape 2 = c.shape →
      st.training = true →
      CDropout.forward_default ops st x rng =
        (bc_mul x (CDropout.concrete_mask ops st st.noise),
          CDropout.update_concrete_noise ops st st.noise, rng)) ∧
    (∀ (tc : List (List ℚ) → List (List ℚ)) (p : Policy) (x : List (List ℚ)),
      Policy.forward tc p x none = Policy.forward tc p x (some true)) := by
  refine ⟨?_, ?_, ?_⟩
  · intro st x rng h
    simp [BDropout.forward_default, BDropout.forward, h]
  · intro ops st x rng c hc hs htr
    rw [CDropout.forward_default, cdropout_forward_reuse ops st x 2 rng c hc hs]
    simp [htr]
  · intro tc p x
    rfl

/-- Witness for C10 at concrete layers, inputs and a concrete policy. -/
theorem claim_C10_witness :
    (trailing (Tensor.mk [1, 2] [3, 4]).shape 2 =
        (BDropout.mk (1/3) ⟨[1, 2], [1, 0]⟩).noise.shape ∧
      (BDropout.mk (1/3) ⟨[1, 2], [1, 0]⟩).forward_default ⟨[1, 2], [3, 4]⟩ [0, 1] =
        (bc_mul ⟨[1, 2], [3, 4]⟩
            (bernoulli_expand (1 - (1/3)) [1, 2] [0, 1]),
          BDropout.mk (1/3) ⟨[1, 2], [1, 0]⟩,
          ([0, 1] : List ℚ).drop (numel [1, 2]))) ∧
    (((CDropout.mk (1/2) 0 (1/10) ⟨[1, 2], [1, 1]⟩
          (some ⟨[1, 2], [1, 0]⟩) true).concrete_noise =
        some ⟨[1, 2], [1, 0]⟩ ∧
      trailing (Tensor.mk [1, 2] [3, 4]).shape 2 =
        (Tensor.mk [1, 2] [1, 0]).shape ∧
      (CDropout.mk (1/2) 0 (1/10) ⟨[1, 2], [1, 1]⟩
          (some ⟨[1, 2], [1, 0]⟩) true).training = true) ∧
      CDropout.forward_default ⟨fun q => q, fun q => q⟩
          (CDropout.mk (1/2) 0 (1/10) ⟨[1, 2], [1, 1]⟩
            (some ⟨[1, 2], [1, 0]⟩) true) ⟨[1, 2], [3, 4]⟩ [0, 1] =
        (bc_mul ⟨[1, 2], [3, 4]⟩
            (CDropout.concrete_mask ⟨fun q => q, fun q => q⟩
              (CDropout.mk (1/2) 0 (1/10) ⟨[1, 2], [1, 1]⟩
                (some ⟨[1, 2], [1, 0]⟩) true) ⟨[1, 2], [1, 1]⟩),
          CDropout.update_concrete_noise ⟨fun q => q, fun q => q⟩
            (CDropout.mk (1/2) 0 (1/10) ⟨[1, 2], [1, 1]⟩
              (some ⟨[1, 2], [1, 0]⟩) true) ⟨[1, 2], [1, 1]⟩,
          ([0, 1] : List ℚ))) ∧
    Policy.forward (fun v => v) ⟨2, 1, fun v _ => v⟩ [[5]] none =
      Policy.forward (fun v => v) ⟨2, 1, fun v _ => v⟩ [[5]] (some true) :=
  ⟨⟨rfl, claim_C10_resample_defaults.1 ⟨1/3, ⟨[1, 2], [1, 0]⟩⟩
      ⟨[1, 2], [3, 4]⟩ [0, 1] rfl⟩,
    ⟨⟨rfl, rfl, rfl⟩,
      claim_C10_resample_defaults.2.1 ⟨fun q => q, fun q => q⟩
        (CDropout.mk (1/2) 0 (1/10) ⟨[1, 2], [1, 1]⟩
          (some ⟨[1, 2], [1, 0]⟩) true) ⟨[1, 2], [3, 4]⟩ [0, 1]
        ⟨[1, 2], [1, 0]⟩ rfl rfl rfl⟩,
    claim_C10_resample_defaults.2.2 (fun v => v) ⟨2, 1, fun v _ => v⟩ [[5]]⟩

end ProbMbrl

